import Mathlib

/-!
Verification development for the cryptography-web-app backend.

Shallow embedding of the Python sources under `backend/app`:
strings and byte strings are modelled as `List Nat` (their byte values),
Python dictionaries as insertion-ordered association lists, the ambient
clock (`datetime.utcnow()`) as an explicit `now : Int` parameter
(seconds), and external cryptographic primitives (AES-GCM, Scrypt, RSA
signatures) as executable idealizations that keep the structural
contract of the real primitive (CTR-style masking plus tag for the AEAD,
perfectly unforgeable signatures bound to the signed body).
-/

deriving instance DecidableEq for Except

namespace CryptoChat

/-- Byte strings: Python `str`/`bytes` values as lists of byte values. -/
abbrev Bytes := List Nat

/-! ## `app/utils/crypto.py` -/

namespace Crypto

/-- Executable stand-in for a byte-string digest, used by the idealized
primitives below. -/
def byteFold (xs : Bytes) : Nat :=
  xs.foldl (fun a b => (a * 31 + b) % 251) 7

/-- `get_encryption_key`: derives a 32-byte key from the server key.
The external Scrypt KDF is modelled as an executable deterministic
expansion of the password; `decrypt_message` uses the same derivation,
which is all the claims depend on. -/
def get_encryption_key (serverKey : Bytes) : Bytes :=
  (List.range 32).map (fun i => (byteFold serverKey * 131 + i * 17 + 5) % 256)

/-- Idealized AES-CTR keystream byte `i` under `key, nonce` (the AES
block cipher is an external primitive, modelled as an executable PRF). -/
def keystream (key nonce : Bytes) (i : Nat) : Nat :=
  (byteFold key * 257 + byteFold nonce * 101 + i * 29 + 11) % 256

/-- The keystream prefix of length `m`. -/
def ksList (key nonce : Bytes) (m : Nat) : Bytes :=
  (List.range m).map (keystream key nonce)

/-- CTR-mode masking: XOR the input with the keystream (GCM encrypts the
plaintext this way; applying it twice is the identity). -/
def ctrMask (key nonce xs : Bytes) : Bytes :=
  List.zipWith (fun a b => a ^^^ b) xs (ksList key nonce xs.length)

/-- Idealized GHASH authentication tag (16 bytes) over the ciphertext. -/
def gcmTag (key nonce ct : Bytes) : Bytes :=
  (List.range 16).map (fun i => (keystream key nonce (ct.length + i) + byteFold ct * 3) % 256)

/-- `AESGCM(key).encrypt(nonce, pt, None)`: ciphertext body followed by
the 16-byte authentication tag. -/
def aesgcmEncrypt (key nonce pt : Bytes) : Bytes :=
  ctrMask key nonce pt ++ gcmTag key nonce (ctrMask key nonce pt)

/-- `AESGCM(key).decrypt(nonce, ct, None)`: checks the tag and unmasks;
`none` models the `InvalidTag` exception. -/
def aesgcmDecrypt (key nonce ct : Bytes) : Option Bytes :=
  if ct.length < 16 then none
  else
    let body := ct.take (ct.length - 16)
    let tag := ct.drop (ct.length - 16)
    if gcmTag key nonce body == tag then some (ctrMask key nonce body) else none

/-- `base64.b64encode`: external transport coding, modelled as an
executable injective byte-to-ASCII coding (two ASCII letters per byte)
with the exact decoder `b64decode` below. -/
def b64encode : Bytes → Bytes
  | [] => []
  | b :: rest => (65 + b / 16) :: (65 + b % 16) :: b64encode rest

/-- `base64.b64decode`: decoder for `b64encode`. -/
def b64decode : Bytes → Bytes
  | a :: b :: rest => ((a - 65) * 16 + (b - 65)) :: b64decode rest
  | _ => []

/-- `encrypt_message(plaintext)`: AES-256-GCM under the server-derived
key, returning `(ciphertext_b64, nonce_b64)`.  The `os.urandom(12)`
nonce is passed in explicitly as `nonce`. -/
def encrypt_message (serverKey nonce pt : Bytes) : Bytes × Bytes :=
  let key := get_encryption_key serverKey
  let ciphertext := aesgcmEncrypt key nonce pt
  (b64encode ciphertext, b64encode nonce)

/-- `decrypt_message(ciphertext_b64, nonce_b64)`: decodes and decrypts
under the same server-derived key; `none` models the exception path. -/
def decrypt_message (serverKey ct64 nonce64 : Bytes) : Option Bytes :=
  let key := get_encryption_key serverKey
  let ciphertext := b64decode ct64
  let nonce := b64decode nonce64
  aesgcmDecrypt key nonce ciphertext

end Crypto

/-! ## `app/utils/certificate.py` -/

namespace Cert

/-- RSA public key material (modulus and public exponent). -/
structure RSAPub where
  n : Nat
  e : Nat
deriving DecidableEq

/-- The to-be-signed body of an X.509 certificate: the fields the code
reads (`serial_number`, subject/issuer common names, validity window as
UTC timestamps in seconds, `subjectKey`). -/
structure CertBody where
  serialNumber : Nat
  subjectCN : Bytes
  issuerCN : Bytes
  notBefore : Int
  notAfter : Int
  subjectKey : RSAPub
deriving DecidableEq

/-- An RSA-PKCS1v15 signature value, idealized: it records which private
key produced it (identified by the matching public-key handle) and the
exact certificate body it signed.  `sigVerify` below is the
corresponding perfect verification predicate. -/
structure Signature where
  signer : Nat
  signedBody : CertBody
deriving DecidableEq

/-- `ca_public_key.verify(...)` over the to-be-signed body: succeeds iff
the signature was produced by the key matching `pub` over exactly this
body (ideal unforgeability of the external RSA primitive). -/
def sigVerify (pub : Nat) (sig : Signature) (body : CertBody) : Bool :=
  sig.signer == pub && sig.signedBody == body

/-- A parsed X.509 certificate: body plus issuer signature. -/
structure Certificate where
  body : CertBody
  signature : Signature
deriving DecidableEq

/-- A parsed certificate signing request: subject plus its public key.
Different serializations of the same key parse to the same `RSAPub`. -/
structure CSR where
  subjectCN : Bytes
  publicKey : RSAPub
deriving DecidableEq

/-- A PEM input string: it parses as a certificate, as a CSR, or as
neither (arbitrary malformed bytes). -/
inductive Pem
  | cert (c : Certificate)
  | csr (r : CSR)
  | garbage (s : Bytes)
deriving DecidableEq

/-- `x509.load_pem_x509_certificate`: `none` models the parse exception. -/
def parseCert : Pem → Option Certificate
  | .cert c => some c
  | _ => none

/-- `x509.load_pem_x509_csr`: `none` models the parse exception. -/
def parseCsr : Pem → Option CSR
  | .csr r => some r
  | _ => none

/-- `public_bytes(Encoding.PEM, PublicFormat.SubjectPublicKeyInfo)`: the
canonical serialization of a public key, a function of the key value
only (so independent of the key material's original serialization) and
injective. -/
def spkiPem (k : RSAPub) : Bytes :=
  [k.n, k.e]

/-- `verify_certificate(cert_pem, ca_cert)`: true iff the PEM parses as
a certificate whose signature verifies under the CA public key; every
failure path, the parse exception included, is caught by the
`except (InvalidSignature, Exception)` clause and yields `False`, which
the embedding reflects by being a total function into `Bool`.  The CA
certificate argument is represented by its public key `caPub`. -/
def verify_certificate (cert_pem : Pem) (caPub : Nat) : Bool :=
  match parseCert cert_pem with
  | none => false
  | some c => sigVerify caPub c.signature c.body

/-- `is_certificate_expired(cert_pem)`: parses (no exception handler, so
`none` models an uncaught parse exception) and compares the ambient
clock `datetime.utcnow()` — threaded as `now` — strictly against
`not_valid_after`. -/
def is_certificate_expired (cert_pem : Pem) (now : Int) : Option Bool :=
  (parseCert cert_pem).map (fun c => decide (now > c.body.notAfter))

/-- The record returned by `extract_certificate_info`.  The hex
formatting of the serial is omitted (the serial number itself stands for
its hex string). -/
structure CertInfo where
  serial : Nat
  subject : Bytes
  issuer : Bytes
  not_before : Int
  not_after : Int
  is_expired : Bool
deriving DecidableEq

/-- `extract_certificate_info(cert_pem)`: pure parse of the fields; no
exception handler, so `none` models an uncaught parse exception. -/
def extract_certificate_info (cert_pem : Pem) (now : Int) : Option CertInfo :=
  (parseCert cert_pem).map (fun c =>
    { serial := c.body.serialNumber
      subject := c.body.subjectCN
      issuer := c.body.issuerCN
      not_before := c.body.notBefore
      not_after := c.body.notAfter
      is_expired := decide (now > c.body.notAfter) })

/-- `verify_csr_matches_cert(csr_pem, cert_pem)`: parses both and
compares the two public keys by their canonical SubjectPublicKeyInfo
serializations; any exception yields `False`. -/
def verify_csr_matches_cert (csr_pem cert_pem : Pem) : Bool :=
  match parseCsr csr_pem, parseCert cert_pem with
  | some r, some c => spkiPem r.publicKey == spkiPem c.body.subjectKey
  | _, _ => false

end Cert

/-! ## `app/api/certificates.py` -/

namespace CertApi

open Cert

/-- The certificate-relevant columns of the `users` row backing
`current_user` (`app/models/user.py`). -/
structure UserRec where
  id : Nat
  csr : Option Pem
  certificate : Option Pem
  certificate_status : Option String
  certificate_expires_at : Option Int
  certificate_serial : Option Nat
deriving DecidableEq

/-- The `HTTPException` rejections of the certificate endpoints;
`internalError` models an uncaught exception (HTTP 500). -/
inductive UploadErr
  | signatureInvalid
  | noPendingRequest
  | keyMismatch
  | alreadyExpired
  | internalError
deriving DecidableEq

/-- `CertificateStatusResponse`. -/
structure StatusResponse where
  status : String
  expires_at : Option Int
  serial : Option Nat
  subject : Option Bytes
deriving DecidableEq

/-- `upload_certificate` (`POST /upload`): validates — CA signature
first, then CSR presence, then key match, then expiry — and only then
mutates `current_user`.  The returned `UserRec` is the post-state of the
user row on every path (rejections raise before any mutation, so they
return the input row unchanged, exactly as the handler's code order
does). -/
def upload_certificate (caPub : Nat) (now : Int) (user : UserRec) (cert_pem : Pem) :
    UserRec × Except UploadErr StatusResponse :=
  if verify_certificate cert_pem caPub = false then
    (user, .error .signatureInvalid)
  else
    match user.csr with
    | none => (user, .error .noPendingRequest)
    | some csr_pem =>
      if verify_csr_matches_cert csr_pem cert_pem = false then
        (user, .error .keyMismatch)
      else
        match is_certificate_expired cert_pem now with
        | none => (user, .error .internalError)
        | some true => (user, .error .alreadyExpired)
        | some false =>
          match extract_certificate_info cert_pem now with
          | none => (user, .error .internalError)
          | some info =>
            ({ user with
                certificate := some cert_pem
                certificate_status := some "active"
                certificate_expires_at := some info.not_after
                certificate_serial := some info.serial },
             .ok { status := "active"
                   expires_at := some info.not_after
                   serial := some info.serial
                   subject := some info.subject })

/-- Python truthiness of the stored status with the `or "none"`
fallback. -/
def statusOrNone (s : Option String) : String :=
  match s with
  | none => "none"
  | some v => if v = "" then "none" else v

/-- `get_certificate_status` (`GET /status`): recomputes expiry from the
stored certificate on every read and never writes the row (the returned
`UserRec` is the post-state; the handler performs no mutation on any
path).  `Except Unit` models the uncaught parse exception (HTTP 500) of
`is_certificate_expired` on a malformed stored certificate. -/
def get_certificate_status (now : Int) (user : UserRec) :
    UserRec × Except Unit StatusResponse :=
  match user.certificate_status, user.certificate with
  | some s, some pem =>
    if s = "active" then
      match is_certificate_expired pem now with
      | none => (user, .error ())
      | some true =>
        (user, .ok { status := "expired"
                     expires_at := user.certificate_expires_at
                     serial := user.certificate_serial
                     subject := none })
      | some false =>
        (user, .ok { status := statusOrNone user.certificate_status
                     expires_at := user.certificate_expires_at
                     serial := user.certificate_serial
                     subject := none })
    else
      (user, .ok { status := statusOrNone user.certificate_status
                   expires_at := user.certificate_expires_at
                   serial := user.certificate_serial
                   subject := none })
  | _, _ =>
    (user, .ok { status := statusOrNone user.certificate_status
                 expires_at := user.certificate_expires_at
                 serial := user.certificate_serial
                 subject := none })

end CertApi

/-! ## `app/socket/events.py` -/

namespace Events

/-- The value side of a `connected_users` entry. -/
structure ConnInfo where
  sid : Nat
  username : Bytes
deriving DecidableEq

/-- Insertion-ordered association list standing for a Python `dict`
(`d[k] = v` keeps the key's original position on overwrite). -/
def assocSet {β : Type} : List (Nat × β) → Nat → β → List (Nat × β)
  | [], k, v => [(k, v)]
  | (k0, v0) :: rest, k, v =>
    if k0 = k then (k, v) :: rest else (k0, v0) :: assocSet rest k v

/-- Python `d.get(k)`. -/
def assocGet {β : Type} : List (Nat × β) → Nat → Option β
  | [], _ => none
  | (k0, v0) :: rest, k => if k0 = k then some v0 else assocGet rest k

/-- Python `del d[k]` (silent when absent, matching the guarded uses). -/
def assocDel {β : Type} : List (Nat × β) → Nat → List (Nat × β)
  | [], _ => []
  | (k0, v0) :: rest, k => if k0 = k then rest else (k0, v0) :: assocDel rest k

/-- The module-level mutable state: `connected_users` (user id to
connection info, one slot per user) and `sid_conversations` (sid to the
set of joined conversation ids, as a list). -/
structure NetState where
  connected_users : List (Nat × ConnInfo)
  sid_conversations : List (Nat × List Nat)
deriving DecidableEq

/-- A `users` row as the socket module reads it. -/
structure SUser where
  id : Nat
  username : Bytes
  is_online : Bool
deriving DecidableEq

/-- A `conversations` row. -/
structure ConvRec where
  id : Nat
  participant1_id : Nat
  participant2_id : Nat
  updated_at : Int
deriving DecidableEq

/-- A `messages` row as written by the socket handler (the columns it
populates). -/
structure MsgRec where
  id : Nat
  conversation_id : Nat
  sender_id : Nat
  ciphertext : Bytes
  nonce : Bytes
  created_at : Int
deriving DecidableEq

/-- The relational store the handlers touch. -/
structure AppDb where
  users : List SUser
  conversations : List ConvRec
  messages : List MsgRec
deriving DecidableEq

/-- The `new_message` broadcast payload (`message_data` in the code). -/
structure MsgPayload where
  id : Nat
  conversation_id : Nat
  sender_id : Nat
  content : Bytes
  created_at : Int
deriving DecidableEq

/-- The outward event surface the socket module emits. -/
inductive Event
  | user_online (user_id : Nat) (username : Bytes)
  | user_offline (user_id : Nat) (username : Bytes)
  | new_message (room : Nat) (payload : MsgPayload)
  | message_notification (toSid : Nat) (conversation_id : Nat) (sender_id : Nat)
deriving DecidableEq

/-- The registry effect of a successful `connect`: store the connection
(one slot per user id, overwriting any previous sid for that user),
give the sid an empty joined-rooms set, and emit `user_online`. -/
def registerConnection (st : NetState) (uid : Nat) (uname : Bytes) (sid : Nat) :
    NetState × List Event :=
  ({ connected_users := assocSet st.connected_users uid ⟨sid, uname⟩
     sid_conversations := assocSet st.sid_conversations sid [] },
   [Event.user_online uid uname])

/-- Result of the `disconnect` handler: new module state, updated users
table, emitted events, and the user the sid scan found (the code's
`user_id`/`username` locals, which drive the offline branch). -/
structure DisconnectResult where
  st : NetState
  users : List SUser
  events : List Event
  foundUser : Option (Nat × Bytes)
deriving DecidableEq

/-- `disconnect(sid)`: scan `connected_users` for the first entry whose
stored sid matches, delete it, drop the sid's room set, and — only when
the scan found a user — mark that user offline and emit `user_offline`. -/
def disconnect (st : NetState) (users : List SUser) (sid : Nat) : DisconnectResult :=
  match st.connected_users.find? (fun p => p.2.sid == sid) with
  | some (uid, info) =>
    { st := { connected_users := assocDel st.connected_users uid
              sid_conversations := assocDel st.sid_conversations sid }
      users := users.map (fun u => if u.id == uid then { u with is_online := false } else u)
      events := [Event.user_offline uid info.username]
      foundUser := some (uid, info.username) }
  | none =>
    { st := { connected_users := st.connected_users
              sid_conversations := assocDel st.sid_conversations sid }
      users := users
      events := []
      foundUser := none }

/-- `get_user_from_sid(sid)`: linear scan of `connected_users` for the
sid, then a DB lookup of the matching user id. -/
def get_user_from_sid (st : NetState) (db : AppDb) (sid : Nat) : Option SUser :=
  match st.connected_users.find? (fun p => p.2.sid == sid) with
  | some (uid, _) => db.users.find? (fun u => u.id == uid)
  | none => none

/-- The declarative rejections of `send_message`. -/
inductive SendErr
  | missingFields
  | notAuthenticated
  | conversationNotFound
  | notParticipant
deriving DecidableEq

/-- Result of the `send_message` handler. -/
structure SendResult where
  db : AppDb
  events : List Event
  response : Except SendErr Nat
deriving DecidableEq

/-- `send_message(sid, data)`: client sends plaintext; the server
encrypts it (`encrypt_message`) for storage, appends the message row,
broadcasts the plaintext `message_data` to the conversation room, and
notifies the other participant's connection when it is online but not
joined to the room.  `serverKey` and the fresh `nonce` feed the
encryption; `freshMsgId` and `now` stand for the generated row id and
`datetime.utcnow()`. -/
def send_message (st : NetState) (db : AppDb) (sid : Nat)
    (conversation_id : Option Nat) (content : Option Bytes)
    (serverKey nonce : Bytes) (freshMsgId : Nat) (now : Int) : SendResult :=
  match conversation_id, content with
  | some cid, some ct =>
    if ct.isEmpty then { db := db, events := [], response := .error .missingFields }
    else
      match get_user_from_sid st db sid with
      | none => { db := db, events := [], response := .error .notAuthenticated }
      | some user =>
        match db.conversations.find? (fun cv => cv.id == cid) with
        | none => { db := db, events := [], response := .error .conversationNotFound }
        | some conv =>
          if conv.participant1_id != user.id && conv.participant2_id != user.id then
            { db := db, events := [], response := .error .notParticipant }
          else
            let enc := Crypto.encrypt_message serverKey nonce ct
            let msg : MsgRec :=
              { id := freshMsgId, conversation_id := cid, sender_id := user.id
                ciphertext := enc.1, nonce := enc.2, created_at := now }
            let db1 : AppDb :=
              { db with
                  messages := db.messages ++ [msg]
                  conversations := db.conversations.map
                    (fun cv => if cv.id == cid then { cv with updated_at := now } else cv) }
            let payload : MsgPayload :=
              { id := freshMsgId, conversation_id := cid, sender_id := user.id
                content := ct, created_at := now }
            let other_user_id :=
              if conv.participant1_id == user.id then conv.participant2_id
              else conv.participant1_id
            let notifEvents :=
              match assocGet st.connected_users other_user_id with
              | some otherInfo =>
                match assocGet st.sid_conversations otherInfo.sid with
                | none => [Event.message_notification otherInfo.sid cid user.id]
                | some rooms =>
                  if cid ∈ rooms then []
                  else [Event.message_notification otherInfo.sid cid user.id]
              | none => []
            { db := db1
              events := Event.new_message cid payload :: notifEvents
              response := .ok freshMsgId }
  | _, _ => { db := db, events := [], response := .error .missingFields }

/-- `user_offline` events for a given identity, for counting
notifications across a scenario. -/
def isOfflineEventFor (uid : Nat) : Event → Bool
  | .user_offline u _ => u == uid
  | _ => false

/-- Number of `user_offline` events for `uid` in an event trace. -/
def countOffline (uid : Nat) (evs : List Event) : Nat :=
  (evs.filter (isOfflineEventFor uid)).length

end Events

/-! ## `app/api/messages.py` -/

namespace MsgApi

open Events

/-- Rejections of the conversation endpoints. -/
inductive ConvErr
  | selfConversation
  | userNotFound
  | conversationNotFound
  | notParticipant
deriving DecidableEq

/-- `get_or_create_conversation` (`POST /with/{user_id}`): rejects a
conversation with oneself before any lookup or write, 404s on an
unknown target, returns the existing conversation for the unordered
pair, and otherwise creates one with `(current, target)` as
participants.  The returned `AppDb` is the post-state. -/
def get_or_create_conversation (db : AppDb) (freshId : Nat) (now : Int)
    (currentId targetId : Nat) : AppDb × Except ConvErr ConvRec :=
  if targetId == currentId then (db, .error .selfConversation)
  else
    match db.users.find? (fun u => u.id == targetId) with
    | none => (db, .error .userNotFound)
    | some _ =>
      match db.conversations.find? (fun cv =>
          (cv.participant1_id == currentId && cv.participant2_id == targetId) ||
          (cv.participant1_id == targetId && cv.participant2_id == currentId)) with
      | some cv => (db, .ok cv)
      | none =>
        let cv : ConvRec :=
          { id := freshId, participant1_id := currentId
            participant2_id := targetId, updated_at := now }
        ({ db with conversations := db.conversations ++ [cv] }, .ok cv)

/-- The placeholder content returned when decryption of a stored
message fails (the byte values of the literal in the code). -/
def decryptFailText : Bytes :=
  [91, 77, 101, 115, 115, 97, 103, 101, 32, 99, 111, 117, 108, 100, 32,
   110, 111, 116, 32, 98, 101, 32, 100, 101, 99, 114, 121, 112, 116, 101, 100, 93]

/-- `get_conversation` (`GET /{conversation_id}`): participant check,
then fetch the conversation's messages newest-first with
offset/limit, reverse back to chronological order, and decrypt each
stored ciphertext with the server key (placeholder on failure). -/
def get_conversation (db : AppDb) (serverKey : Bytes) (readerId : Nat)
    (conversationId : Nat) (limit offsetN : Nat) :
    Except ConvErr (List MsgPayload) :=
  match db.conversations.find? (fun cv => cv.id == conversationId) with
  | none => .error .conversationNotFound
  | some conv =>
    if conv.participant1_id != readerId && conv.participant2_id != readerId then
      .error .notParticipant
    else
      let newestFirst := (db.messages.filter
        (fun m => m.conversation_id == conversationId)).reverse
      let fetched := (newestFirst.drop offsetN).take limit
      let chronological := fetched.reverse
      .ok (chronological.map (fun m =>
        { id := m.id
          conversation_id := m.conversation_id
          sender_id := m.sender_id
          content := (Crypto.decrypt_message serverKey m.ciphertext m.nonce).getD decryptFailText
          created_at := m.created_at }))

end MsgApi

/-! ## Supporting lemmas -/

namespace Crypto

theorem length_ksList (key nonce : Bytes) (m : Nat) : (ksList key nonce m).length = m := by
  simp [ksList]

theorem length_ctrMask (key nonce xs : Bytes) : (ctrMask key nonce xs).length = xs.length := by
  simp [ctrMask, length_ksList]

theorem zipWith_xor_cancel (xs : Bytes) : ∀ ks : Bytes, xs.length ≤ ks.length →
    List.zipWith (fun a b => a ^^^ b) (List.zipWith (fun a b => a ^^^ b) xs ks) ks = xs := by
  induction xs with
  | nil => intro ks h; simp
  | cons x xs ih =>
    intro ks h
    cases ks with
    | nil => simp at h
    | cons k ks =>
      simp only [List.zipWith_cons_cons]
      rw [ih ks (by simpa using h)]
      rw [Nat.xor_assoc, Nat.xor_self, Nat.xor_zero]

theorem ctrMask_ctrMask (key nonce xs : Bytes) :
    ctrMask key nonce (ctrMask key nonce xs) = xs := by
  have h := length_ctrMask key nonce xs
  unfold ctrMask
  rw [show (List.zipWith (fun a b => a ^^^ b) xs (ksList key nonce xs.length)).length
        = xs.length from h]
  exact zipWith_xor_cancel xs (ksList key nonce xs.length)
    (by rw [length_ksList])

theorem b64decode_b64encode (xs : Bytes) : b64decode (b64encode xs) = xs := by
  induction xs with
  | nil => rfl
  | cons b rest ih =>
    simp only [b64encode, b64decode, ih]
    congr 1
    omega

theorem aesgcmDecrypt_aesgcmEncrypt (key nonce pt : Bytes) :
    aesgcmDecrypt key nonce (aesgcmEncrypt key nonce pt) = some pt := by
  have hb : (ctrMask key nonce pt).length = pt.length := length_ctrMask key nonce pt
  have ht : (gcmTag key nonce (ctrMask key nonce pt)).length = 16 := by simp [gcmTag]
  have hlen : (aesgcmEncrypt key nonce pt).length = pt.length + 16 := by
    simp [aesgcmEncrypt, hb, ht]
  unfold aesgcmDecrypt
  rw [if_neg (by omega)]
  have hsub : (aesgcmEncrypt key nonce pt).length - 16 = (ctrMask key nonce pt).length := by
    omega
  simp only [hsub]
  unfold aesgcmEncrypt
  rw [List.take_left, List.drop_left]
  rw [if_pos (by simp)]
  rw [ctrMask_ctrMask]

theorem decrypt_message_encrypt_message (serverKey nonce pt : Bytes) :
    decrypt_message serverKey (encrypt_message serverKey nonce pt).1
      (encrypt_message serverKey nonce pt).2 = some pt := by
  unfold decrypt_message encrypt_message
  simp only [b64decode_b64encode]
  exact aesgcmDecrypt_aesgcmEncrypt _ _ _

end Crypto

namespace Events

theorem find_sid_none (s : Nat) :
    ∀ l : List (Nat × ConnInfo), (∀ p ∈ l, p.2.sid ≠ s) →
      l.find? (fun p => p.2.sid == s) = none := by
  intro l
  induction l with
  | nil => intro _; rfl
  | cons p rest ih =>
    intro h
    have hp : (p.2.sid == s) = false := by
      simpa using h p (List.mem_cons_self p rest)
    simp only [List.find?_cons, hp]
    exact ih (fun q hq => h q (List.mem_cons_of_mem p hq))

theorem find_c1_after_overwrite (u : Nat) (un : Bytes) (c1 c2 : Nat) (hne : c1 ≠ c2) :
    ∀ l : List (Nat × ConnInfo), (∀ p ∈ l, p.2.sid ≠ c1) →
      (assocSet (assocSet l u ⟨c1, un⟩) u ⟨c2, un⟩).find? (fun p => p.2.sid == c1) = none := by
  intro l
  induction l with
  | nil =>
    intro _
    simp [assocSet, List.find?_cons, (by simpa using (Ne.symm hne) : (c2 == c1) = false)]
  | cons p rest ih =>
    intro h
    cases p with
    | mk k0 v0 =>
      by_cases hk : k0 = u
      · subst hk
        have hc : (c2 == c1) = false := by simpa using Ne.symm hne
        have hrest := find_sid_none c1 rest (fun q hq => h q (List.mem_cons_of_mem _ hq))
        simp [assocSet, List.find?_cons, hc, hrest]
      · have hv : (v0.sid == c1) = false := by
          simpa using h (k0, v0) (List.mem_cons_self _ rest)
        have hrest := ih (fun q hq => h q (List.mem_cons_of_mem _ hq))
        simp [assocSet, if_neg hk, List.find?_cons, hv, hrest]

theorem find_c2_after_overwrite (u : Nat) (un : Bytes) (c1 c2 : Nat) :
    ∀ l : List (Nat × ConnInfo), (∀ p ∈ l, p.2.sid ≠ c2) →
      (assocSet (assocSet l u ⟨c1, un⟩) u ⟨c2, un⟩).find? (fun p => p.2.sid == c2)
        = some (u, ⟨c2, un⟩) := by
  intro l
  induction l with
  | nil => simp [assocSet, List.find?_cons]
  | cons p rest ih =>
    intro h
    cases p with
    | mk k0 v0 =>
      by_cases hk : k0 = u
      · subst hk
        simp [assocSet, List.find?_cons]
      · have hv : (v0.sid == c2) = false := by
          simpa using h (k0, v0) (List.mem_cons_self _ rest)
        have hrest := ih (fun q hq => h q (List.mem_cons_of_mem _ hq))
        simp [assocSet, if_neg hk, List.find?_cons, hv, hrest]

theorem mem_assocDel {β : Type} (k : Nat) :
    ∀ (l : List (Nat × β)) (q : Nat × β), q ∈ assocDel l k → q ∈ l := by
  intro l
  induction l with
  | nil => intro q h; simp [assocDel] at h
  | cons p rest ih =>
    cases p with
    | mk k0 v0 =>
      intro q h
      by_cases hk : k0 = k
      · simp only [assocDel, if_pos hk] at h
        exact List.mem_cons_of_mem _ h
      · simp only [assocDel, if_neg hk] at h
        rcases List.mem_cons.mp h with h | h
        · exact h ▸ List.mem_cons_self _ _
        · exact List.mem_cons_of_mem _ (ih q h)

theorem mem_assocSet_overwrite {β : Type} (u : Nat) (v1 v2 : β) :
    ∀ (l : List (Nat × β)) (q : Nat × β),
      q ∈ assocSet (assocSet l u v2) u v1 → q ∈ l ∨ q = (u, v1) := by
  intro l
  induction l with
  | nil =>
    intro q h
    simp [assocSet] at h
    exact Or.inr (by simp [h])
  | cons p rest ih =>
    cases p with
    | mk k0 v0 =>
      intro q h
      by_cases hk : k0 = u
      · subst hk
        simp only [assocSet, if_pos rfl] at h
        rcases List.mem_cons.mp h with h | h
        · exact Or.inr h
        · exact Or.inl (List.mem_cons_of_mem _ h)
      · simp only [assocSet, if_neg hk] at h
        rcases List.mem_cons.mp h with h | h
        · exact Or.inl (h ▸ List.mem_cons_self _ _)
        · rcases ih q h with h | h
          · exact Or.inl (List.mem_cons_of_mem _ h)
          · exact Or.inr h

end Events

namespace Cert

theorem spkiPem_inj {a b : RSAPub} (h : spkiPem a = spkiPem b) : a = b := by
  cases a with
  | mk n1 e1 =>
    cases b with
    | mk n2 e2 =>
      simp [spkiPem] at h
      simp [h.1, h.2]

end Cert

/-! ## Claims -/

/-- Claim C3: for every uploaded certificate that is not signed by the
loaded CA, `upload_certificate` rejects with the SignatureInvalid error
(HTTP 400 "Certificate is not signed by the CA") and leaves the user
row unchanged, for every user state — whether or not a CSR is pending,
whether or not the key would match, and whatever the expiry is: the
CA-signature check runs first and dominates every other failure cause. -/
theorem claim_C3_ca_signature_dominates
    (caPub : Nat) (now : Int) (user : CryptoChat.CertApi.UserRec)
    (c : CryptoChat.Cert.Certificate)
    (h : CryptoChat.Cert.sigVerify caPub c.signature c.body = false) :
    CryptoChat.CertApi.upload_certificate caPub now user (CryptoChat.Cert.Pem.cert c)
      = (user, Except.error CryptoChat.CertApi.UploadErr.signatureInvalid) := by
  have hv : CryptoChat.Cert.verify_certificate (CryptoChat.Cert.Pem.cert c) caPub = false := by
    simpa [CryptoChat.Cert.verify_certificate, CryptoChat.Cert.parseCert] using h
  simp [CryptoChat.CertApi.upload_certificate, hv]

/-- Witness for C3: a certificate signed by key 2 is rejected as
SignatureInvalid under CA public key 1, even though the user has a
matching pending CSR and the certificate is unexpired. -/
theorem claim_C3_witness :
    CryptoChat.Cert.sigVerify 1
        (CryptoChat.Cert.Signature.mk 2 (CryptoChat.Cert.CertBody.mk 7 [97] [99] 0 100 ⟨5, 3⟩))
        (CryptoChat.Cert.CertBody.mk 7 [97] [99] 0 100 ⟨5, 3⟩) = false ∧
    CryptoChat.CertApi.upload_certificate 1 10
        ⟨1, some (CryptoChat.Cert.Pem.csr ⟨[97], ⟨5, 3⟩⟩), none, some "pending", none, none⟩
        (CryptoChat.Cert.Pem.cert
          ⟨⟨7, [97], [99], 0, 100, ⟨5, 3⟩⟩, ⟨2, ⟨7, [97], [99], 0, 100, ⟨5, 3⟩⟩⟩⟩)
      = (⟨1, some (CryptoChat.Cert.Pem.csr ⟨[97], ⟨5, 3⟩⟩), none, some "pending", none, none⟩,
         Except.error CryptoChat.CertApi.UploadErr.signatureInvalid) :=
  ⟨by decide,
   claim_C3_ca_signature_dominates 1 10
     ⟨1, some (CryptoChat.Cert.Pem.csr ⟨[97], ⟨5, 3⟩⟩), none, some "pending", none, none⟩
     ⟨⟨7, [97], [99], 0, 100, ⟨5, 3⟩⟩, ⟨2, ⟨7, [97], [99], 0, 100, ⟨5, 3⟩⟩⟩⟩
     (by decide)⟩

/-- Claim C4: every rejected certificate upload — signature invalid, no
pending CSR, key mismatch, already expired, or an internal error —
returns the user row exactly as it was before the call: the handler
validates before it mutates, so rejection performs no partial state
transition on the stored certificate state. -/
theorem claim_C4_rejection_preserves_state
    (caPub : Nat) (now : Int) (user : CryptoChat.CertApi.UserRec)
    (cert_pem : CryptoChat.Cert.Pem) (e : CryptoChat.CertApi.UploadErr)
    (h : (CryptoChat.CertApi.upload_certificate caPub now user cert_pem).2 = Except.error e) :
    (CryptoChat.CertApi.upload_certificate caPub now user cert_pem).1 = user := by
  revert h
  unfold CryptoChat.CertApi.upload_certificate
  split
  · intro _; rfl
  · split
    · intro _; rfl
    · split
      · intro _; rfl
      · split
        · intro _; rfl
        · intro _; rfl
        · split
          · intro _; rfl
          · intro h; simp at h

/-- Witness for C4: a key-mismatch rejection (CA-signed certificate for
key (6,3) against a CSR for key (5,3)) leaves the user row unchanged. -/
theorem claim_C4_witness :
    (CryptoChat.CertApi.upload_certificate 1 10
        ⟨1, some (CryptoChat.Cert.Pem.csr ⟨[97], ⟨5, 3⟩⟩), none, some "pending", none, none⟩
        (CryptoChat.Cert.Pem.cert
          ⟨⟨7, [97], [99], 0, 100, ⟨6, 3⟩⟩, ⟨1, ⟨7, [97], [99], 0, 100, ⟨6, 3⟩⟩⟩⟩)).2
      = Except.error CryptoChat.CertApi.UploadErr.keyMismatch ∧
    (CryptoChat.CertApi.upload_certificate 1 10
        ⟨1, some (CryptoChat.Cert.Pem.csr ⟨[97], ⟨5, 3⟩⟩), none, some "pending", none, none⟩
        (CryptoChat.Cert.Pem.cert
          ⟨⟨7, [97], [99], 0, 100, ⟨6, 3⟩⟩, ⟨1, ⟨7, [97], [99], 0, 100, ⟨6, 3⟩⟩⟩⟩)).1
      = ⟨1, some (CryptoChat.Cert.Pem.csr ⟨[97], ⟨5, 3⟩⟩), none, some "pending", none, none⟩ :=
  ⟨by decide,
   claim_C4_rejection_preserves_state 1 10
     ⟨1, some (CryptoChat.Cert.Pem.csr ⟨[97], ⟨5, 3⟩⟩), none, some "pending", none, none⟩
     (CryptoChat.Cert.Pem.cert
       ⟨⟨7, [97], [99], 0, 100, ⟨6, 3⟩⟩, ⟨1, ⟨7, [97], [99], 0, 100, ⟨6, 3⟩⟩⟩⟩)
     CryptoChat.CertApi.UploadErr.keyMismatch (by decide)⟩

/-- Claim C5: a certificate-status read never writes the user row (its
post-state equals its pre-state on every path), and when the stored
state is "active" but the certificate's notAfter has passed, the read
returns the derived status "expired" while the stored status field
still says "active". -/
theorem claim_C5_status_read_is_pure_derived :
    (∀ (now : Int) (user : CryptoChat.CertApi.UserRec),
       (CryptoChat.CertApi.get_certificate_status now user).1 = user) ∧
    (∀ (now : Int) (user : CryptoChat.CertApi.UserRec)
       (pem : CryptoChat.Cert.Pem) (c : CryptoChat.Cert.Certificate),
       user.certificate_status = some "active" →
       user.certificate = some pem →
       CryptoChat.Cert.parseCert pem = some c →
       c.body.notAfter < now →
       (CryptoChat.CertApi.get_certificate_status now user).2
         = Except.ok { status := "expired"
                       expires_at := user.certificate_expires_at
                       serial := user.certificate_serial
                       subject := none }) := by
  constructor
  · intro now user
    unfold CryptoChat.CertApi.get_certificate_status
    split <;> first
      | rfl
      | (split <;> first
          | rfl
          | (split <;> rfl))
  · intro now user pem c hs hc hp hlt
    have hexp : CryptoChat.Cert.is_certificate_expired pem now = some true := by
      simp [CryptoChat.Cert.is_certificate_expired, hp]
      omega
    unfold CryptoChat.CertApi.get_certificate_status
    rw [hs, hc]
    simp [hexp]

/-- Witness for C5: a user whose stored status is "active" with a
certificate whose notAfter is 50, read at time 100, gets the derived
status "expired" back. -/
theorem claim_C5_witness :
    (CryptoChat.CertApi.get_certificate_status 100
        ⟨1, none,
         some (CryptoChat.Cert.Pem.cert
           ⟨⟨7, [97], [99], 0, 50, ⟨5, 3⟩⟩, ⟨1, ⟨7, [97], [99], 0, 50, ⟨5, 3⟩⟩⟩⟩),
         some "active", some 50, some 7⟩).2
      = Except.ok { status := "expired", expires_at := some 50, serial := some 7,
                    subject := none } :=
  claim_C5_status_read_is_pure_derived.2 100
    ⟨1, none,
     some (CryptoChat.Cert.Pem.cert
       ⟨⟨7, [97], [99], 0, 50, ⟨5, 3⟩⟩, ⟨1, ⟨7, [97], [99], 0, 50, ⟨5, 3⟩⟩⟩⟩),
     some "active", some 50, some 7⟩
    (CryptoChat.Cert.Pem.cert
      ⟨⟨7, [97], [99], 0, 50, ⟨5, 3⟩⟩, ⟨1, ⟨7, [97], [99], 0, 50, ⟨5, 3⟩⟩⟩⟩)
    ⟨⟨7, [97], [99], 0, 50, ⟨5, 3⟩⟩, ⟨1, ⟨7, [97], [99], 0, 50, ⟨5, 3⟩⟩⟩⟩
    rfl rfl rfl (by decide)

/-- Claim C6: the expiry check is the strict comparison now > notAfter
(the ambient `datetime.utcnow()` clock read is the explicit `now`
parameter of the embedding): it is false one second before notAfter and
at notAfter itself, and true one second after. -/
theorem claim_C6_isExpired_strict_boundary
    (c : CryptoChat.Cert.Certificate) (now : Int) :
    CryptoChat.Cert.is_certificate_expired (CryptoChat.Cert.Pem.cert c) now
      = some (decide (now > c.body.notAfter)) ∧
    CryptoChat.Cert.is_certificate_expired (CryptoChat.Cert.Pem.cert c) (c.body.notAfter - 1)
      = some false ∧
    CryptoChat.Cert.is_certificate_expired (CryptoChat.Cert.Pem.cert c) c.body.notAfter
      = some false ∧
    CryptoChat.Cert.is_certificate_expired (CryptoChat.Cert.Pem.cert c) (c.body.notAfter + 1)
      = some true := by
  refine ⟨rfl, ?_, ?_, ?_⟩
  · simp [CryptoChat.Cert.is_certificate_expired, CryptoChat.Cert.parseCert]
  · simp [CryptoChat.Cert.is_certificate_expired, CryptoChat.Cert.parseCert]
  · simp [CryptoChat.Cert.is_certificate_expired, CryptoChat.Cert.parseCert]

/-- Claim C7: the CSR/certificate key match holds exactly when the two
embedded public keys have identical canonical SubjectPublicKeyInfo
serializations; it is true whenever the parsed keys are equal (however
they were originally serialized) and false whenever they differ. -/
theorem claim_C7_key_match_canonical :
    (∀ (r : CryptoChat.Cert.CSR) (c : CryptoChat.Cert.Certificate),
       CryptoChat.Cert.verify_csr_matches_cert
           (CryptoChat.Cert.Pem.csr r) (CryptoChat.Cert.Pem.cert c) = true
         ↔ CryptoChat.Cert.spkiPem r.publicKey = CryptoChat.Cert.spkiPem c.body.subjectKey) ∧
    (∀ (r : CryptoChat.Cert.CSR) (c : CryptoChat.Cert.Certificate),
       r.publicKey ≠ c.body.subjectKey →
       CryptoChat.Cert.verify_csr_matches_cert
           (CryptoChat.Cert.Pem.csr r) (CryptoChat.Cert.Pem.cert c) = false) ∧
    (∀ (r : CryptoChat.Cert.CSR) (c : CryptoChat.Cert.Certificate),
       r.publicKey = c.body.subjectKey →
       CryptoChat.Cert.verify_csr_matches_cert
           (CryptoChat.Cert.Pem.csr r) (CryptoChat.Cert.Pem.cert c) = true) := by
  refine ⟨?_, ?_, ?_⟩
  · intro r c
    simp [CryptoChat.Cert.verify_csr_matches_cert, CryptoChat.Cert.parseCsr,
      CryptoChat.Cert.parseCert]
  · intro r c hne
    simp [CryptoChat.Cert.verify_csr_matches_cert, CryptoChat.Cert.parseCsr,
      CryptoChat.Cert.parseCert]
    intro heq
    exact absurd (CryptoChat.Cert.spkiPem_inj heq) hne
  · intro r c heq
    simp [CryptoChat.Cert.verify_csr_matches_cert, CryptoChat.Cert.parseCsr,
      CryptoChat.Cert.parseCert, heq]

/-- Witness for C7: differing keys (5,3) vs (6,3) fail the match and
identical keys (5,3) pass it. -/
theorem claim_C7_witness :
    CryptoChat.Cert.verify_csr_matches_cert
        (CryptoChat.Cert.Pem.csr ⟨[97], ⟨5, 3⟩⟩)
        (CryptoChat.Cert.Pem.cert
          ⟨⟨7, [97], [99], 0, 100, ⟨6, 3⟩⟩, ⟨1, ⟨7, [97], [99], 0, 100, ⟨6, 3⟩⟩⟩⟩) = false ∧
    CryptoChat.Cert.verify_csr_matches_cert
        (CryptoChat.Cert.Pem.csr ⟨[97], ⟨5, 3⟩⟩)
        (CryptoChat.Cert.Pem.cert
          ⟨⟨7, [97], [99], 0, 100, ⟨5, 3⟩⟩, ⟨1, ⟨7, [97], [99], 0, 100, ⟨5, 3⟩⟩⟩⟩) = true :=
  ⟨claim_C7_key_match_canonical.2.1 ⟨[97], ⟨5, 3⟩⟩
     ⟨⟨7, [97], [99], 0, 100, ⟨6, 3⟩⟩, ⟨1, ⟨7, [97], [99], 0, 100, ⟨6, 3⟩⟩⟩⟩ (by decide),
   claim_C7_key_match_canonical.2.2 ⟨[97], ⟨5, 3⟩⟩
     ⟨⟨7, [97], [99], 0, 100, ⟨5, 3⟩⟩, ⟨1, ⟨7, [97], [99], 0, 100, ⟨5, 3⟩⟩⟩⟩ rfl⟩

/-- Claim C8: certificate verification is a total boolean predicate of
its inputs — the embedding of the except-all handler is a total
function into Bool, so no input can raise — and every failure path
yields false: unparseable input returns false, and a true result can
only arise from a parsed certificate whose signature verifies. -/
theorem claim_C8_verify_never_raises :
    (∀ (p : CryptoChat.Cert.Pem) (caPub : Nat),
       CryptoChat.Cert.parseCert p = none →
       CryptoChat.Cert.verify_certificate p caPub = false) ∧
    (∀ (p : CryptoChat.Cert.Pem) (caPub : Nat),
       CryptoChat.Cert.verify_certificate p caPub = true →
       ∃ c, CryptoChat.Cert.parseCert p = some c ∧
         CryptoChat.Cert.sigVerify caPub c.signature c.body = true) := by
  constructor
  · intro p caPub h
    simp [CryptoChat.Cert.verify_certificate, h]
  · intro p caPub h
    unfold CryptoChat.Cert.verify_certificate at h
    cases hp : CryptoChat.Cert.parseCert p with
    | none => rw [hp] at h; simp at h
    | some c =>
      rw [hp] at h
      exact ⟨c, rfl, h⟩

/-- Witness for C8: malformed PEM bytes [0] verify to false under any
CA key. -/
theorem claim_C8_witness :
    CryptoChat.Cert.verify_certificate (CryptoChat.Cert.Pem.garbage [0]) 1 = false :=
  claim_C8_verify_never_raises.1 (CryptoChat.Cert.Pem.garbage [0]) 1 rfl

/-- Claim C1 as stated is false on the code: at a concrete routed
message, the `new_message` payload pushed to the conversation room
carries the sender-submitted plaintext bytes [104, 105] verbatim, and
that payload content differs from the stored envelope ciphertext — so
the payload pushed to room connections is the recovered-form plaintext,
not the opaque envelope. -/
theorem claim_C1_counterexample :
    let st : Events.NetState := ⟨[(1, ⟨10, [97]⟩)], [(10, [])]⟩
    let db : Events.AppDb := ⟨[⟨1, [97], true⟩, ⟨2, [98], true⟩], [⟨5, 1, 2, 0⟩], []⟩
    let r := Events.send_message st db 10 (some 5) (some [104, 105]) [7]
      [0, 1, 2, 3, 4, 5, 6, 7, 8, 9, 10, 11] 7 0
    r.events = [Events.Event.new_message 5 ⟨7, 5, 1, [104, 105], 0⟩] ∧
    (r.db.messages.map Events.MsgRec.ciphertext).length = 1 ∧
    r.db.messages.map Events.MsgRec.ciphertext ≠ [[104, 105]] ∧
    r.response = Except.ok 7 := by
  decide

/-- Claim C1 (amended): the send operation applies no decryption during
routing — the `new_message` payload broadcast to the room carries the
sender-submitted plaintext content unchanged — but that payload is the
plaintext itself, not the opaque envelope; the encrypted envelope
(ciphertext and nonce produced by `encrypt_message`) is only persisted
to storage. -/
theorem claim_C1_amended
    (st : Events.NetState) (db : Events.AppDb) (sid cid : Nat)
    (ct serverKey nonce : Bytes) (mid : Nat) (now : Int)
    (u : Events.SUser) (conv : Events.ConvRec)
    (hct : ct ≠ [])
    (hu : Events.get_user_from_sid st db sid = some u)
    (hconv : db.conversations.find? (fun cv => cv.id == cid) = some conv)
    (hp : conv.participant1_id = u.id ∨ conv.participant2_id = u.id) :
    (Events.send_message st db sid (some cid) (some ct) serverKey nonce mid now).events.head?
      = some (Events.Event.new_message cid ⟨mid, cid, u.id, ct, now⟩) ∧
    (Events.send_message st db sid (some cid) (some ct) serverKey nonce mid now).db.messages
      = db.messages ++ [⟨mid, cid, u.id,
          (Crypto.encrypt_message serverKey nonce ct).1,
          (Crypto.encrypt_message serverKey nonce ct).2, now⟩] ∧
    (Events.send_message st db sid (some cid) (some ct) serverKey nonce mid now).response
      = Except.ok mid := by
  have hemp : ct.isEmpty = false := by
    cases ct with
    | nil => exact absurd rfl hct
    | cons a l => rfl
  have hpart : (conv.participant1_id != u.id && conv.participant2_id != u.id) = false := by
    rcases hp with h | h <;> simp [h]
  simp [Events.send_message, hu, hconv, hemp, hpart]

/-- Witness for the amended C1: alice (id 1, sid 10) sends [104, 105]
into conversation 5; the broadcast head event carries the plaintext and
the stored row carries the envelope. -/
theorem claim_C1_witness :
    (Events.send_message ⟨[(1, ⟨10, [97]⟩)], [(10, [])]⟩
        ⟨[⟨1, [97], true⟩, ⟨2, [98], true⟩], [⟨5, 1, 2, 0⟩], []⟩
        10 (some 5) (some [104, 105]) [7] [0, 1, 2, 3, 4, 5, 6, 7, 8, 9, 10, 11]
        7 0).events.head?
      = some (Events.Event.new_message 5 ⟨7, 5, 1, [104, 105], 0⟩) ∧
    (Events.send_message ⟨[(1, ⟨10, [97]⟩)], [(10, [])]⟩
        ⟨[⟨1, [97], true⟩, ⟨2, [98], true⟩], [⟨5, 1, 2, 0⟩], []⟩
        10 (some 5) (some [104, 105]) [7] [0, 1, 2, 3, 4, 5, 6, 7, 8, 9, 10, 11]
        7 0).db.messages
      = [] ++ [⟨7, 5, 1,
          (Crypto.encrypt_message [7] [0, 1, 2, 3, 4, 5, 6, 7, 8, 9, 10, 11] [104, 105]).1,
          (Crypto.encrypt_message [7] [0, 1, 2, 3, 4, 5, 6, 7, 8, 9, 10, 11] [104, 105]).2,
          0⟩] ∧
    (Events.send_message ⟨[(1, ⟨10, [97]⟩)], [(10, [])]⟩
        ⟨[⟨1, [97], true⟩, ⟨2, [98], true⟩], [⟨5, 1, 2, 0⟩], []⟩
        10 (some 5) (some [104, 105]) [7] [0, 1, 2, 3, 4, 5, 6, 7, 8, 9, 10, 11]
        7 0).response = Except.ok 7 :=
  claim_C1_amended ⟨[(1, ⟨10, [97]⟩)], [(10, [])]⟩
    ⟨[⟨1, [97], true⟩, ⟨2, [98], true⟩], [⟨5, 1, 2, 0⟩], []⟩
    10 5 [104, 105] [7] [0, 1, 2, 3, 4, 5, 6, 7, 8, 9, 10, 11] 7 0
    ⟨1, [97], true⟩ ⟨5, 1, 2, 0⟩ (by decide) (by decide) (by decide) (Or.inl rfl)

/-- Claim C2 as stated is false on the code: identity 1 holds two live
connections, sid 11 (registered first) and sid 10 (registered second,
which overwrote the single `connected_users` slot).  Unregistering
c1 = 10 first — while sid 11 is still live — already emits the one
`user_offline` event (the claim requires none at that point), and the
subsequent unregister of c2 = 11 finds no user and emits nothing. -/
theorem claim_C2_counterexample :
    let st2 := (Events.registerConnection
        ((Events.registerConnection ⟨[], []⟩ 1 [97] 11).1) 1 [97] 10).1
    let d1 := Events.disconnect st2 [⟨1, [97], true⟩] 10
    let d2 := Events.disconnect d1.st d1.users 11
    Events.countOffline 1 d1.events = 1 ∧ d1.foundUser = some (1, [97]) ∧
    Events.countOffline 1 d2.events = 0 ∧ d2.foundUser = none := by
  decide

/-- Claim C2 (amended): the single-slot `connected_users` dict tracks
only the most recently registered connection of an identity, so the one
`user_offline` notification fires at the disconnect of that tracked
connection, not necessarily of the last live one.  When c2 is the more
recently registered of the two connections (the scenario's order),
unregistering c1 finds no user and emits no `user_offline`, and the
subsequent unregister of c2 finds the user and emits it; in the reverse
registration order the event fires at the first disconnect instead.  In
both cases exactly one `user_offline` is emitted for the identity
across the two disconnects. -/
theorem claim_C2_amended
    (st0 : Events.NetState) (users : List Events.SUser)
    (u : Nat) (un : Bytes) (c1 c2 : Nat)
    (hne : c1 ≠ c2)
    (hfree : ∀ p ∈ st0.connected_users, p.2.sid ≠ c1 ∧ p.2.sid ≠ c2) :
    (let st2 := (Events.registerConnection
        ((Events.registerConnection st0 u un c1).1) u un c2).1
     let d1 := Events.disconnect st2 users c1
     let d2 := Events.disconnect d1.st d1.users c2
     d1.foundUser = none ∧ Events.countOffline u d1.events = 0 ∧
     d2.foundUser = some (u, un) ∧ Events.countOffline u d2.events = 1 ∧
     Events.countOffline u (d1.events ++ d2.events) = 1) ∧
    (let st2 := (Events.registerConnection
        ((Events.registerConnection st0 u un c2).1) u un c1).1
     let d1 := Events.disconnect st2 users c1
     let d2 := Events.disconnect d1.st d1.users c2
     d1.foundUser = some (u, un) ∧ Events.countOffline u d1.events = 1 ∧
     d2.foundUser = none ∧ Events.countOffline u d2.events = 0 ∧
     Events.countOffline u (d1.events ++ d2.events) = 1) := by
  have h1 := Events.find_c1_after_overwrite u un c1 c2 hne st0.connected_users
    (fun p hp => (hfree p hp).1)
  have h2 := Events.find_c2_after_overwrite u un c1 c2 st0.connected_users
    (fun p hp => (hfree p hp).2)
  constructor
  · simp [Events.registerConnection, Events.disconnect, h1, h2,
      Events.countOffline, Events.isOfflineEventFor]
  · have h3 := Events.find_c2_after_overwrite u un c2 c1 st0.connected_users
      (fun p hp => (hfree p hp).1)
    have h4 : ∀ p ∈ Events.assocDel
        (Events.assocSet (Events.assocSet st0.connected_users u ⟨c2, un⟩) u ⟨c1, un⟩) u,
        p.2.sid ≠ c2 := by
      intro q hq
      rcases Events.mem_assocSet_overwrite u ⟨c1, un⟩ ⟨c2, un⟩ st0.connected_users q
          (Events.mem_assocDel u _ q hq) with h | h
      · exact (hfree q h).2
      · rw [h]; exact hne
    have h5 := Events.find_sid_none c2 _ h4
    simp [Events.registerConnection, Events.disconnect, h3, h5,
      Events.countOffline, Events.isOfflineEventFor]

/-- Witness for the amended C2: identity 1 with connections 10 then 11
registered from the empty registry. -/
theorem claim_C2_witness :
    (let st2 := (Events.registerConnection
        ((Events.registerConnection ⟨[], []⟩ 1 [97] 10).1) 1 [97] 11).1
     let d1 := Events.disconnect st2 [] 10
     let d2 := Events.disconnect d1.st d1.users 11
     d1.foundUser = none ∧ Events.countOffline 1 d1.events = 0 ∧
     d2.foundUser = some (1, [97]) ∧ Events.countOffline 1 d2.events = 1 ∧
     Events.countOffline 1 (d1.events ++ d2.events) = 1) ∧
    (let st2 := (Events.registerConnection
        ((Events.registerConnection ⟨[], []⟩ 1 [97] 11).1) 1 [97] 10).1
     let d1 := Events.disconnect st2 [] 10
     let d2 := Events.disconnect d1.st d1.users 11
     d1.foundUser = some (1, [97]) ∧ Events.countOffline 1 d1.events = 1 ∧
     d2.foundUser = none ∧ Events.countOffline 1 d2.events = 0 ∧
     Events.countOffline 1 (d1.events ++ d2.events) = 1) :=
  claim_C2_amended ⟨[], []⟩ [] 1 [97] 10 11 (by decide)
    (fun p hp => absurd hp (List.not_mem_nil p))

/-- Claim C9: round-trip — a message stored by the send path (envelope
produced by `encrypt_message`) is recovered exactly as the original
plaintext by the conversation read path for any reader who is one of
the conversation's two participants, i.e. for both the sender and the
recipient reader roles. -/
theorem claim_C9_roundtrip_both_roles
    (serverKey nonce content : Bytes) (users : List Events.SUser)
    (conv : Events.ConvRec) (reader sender mid : Nat) (now : Int)
    (hr : reader = conv.participant1_id ∨ reader = conv.participant2_id) :
    MsgApi.get_conversation
      ⟨users, [conv],
       [⟨mid, conv.id, sender,
         (Crypto.encrypt_message serverKey nonce content).1,
         (Crypto.encrypt_message serverKey nonce content).2, now⟩]⟩
      serverKey reader conv.id 50 0
    = Except.ok [⟨mid, conv.id, sender, content, now⟩] := by
  have htake : ∀ m : Events.MsgRec, List.take 50 [m] = [m] := by
    intro m
    exact List.take_of_length_le (by simp)
  rcases hr with h | h <;>
    simp [MsgApi.get_conversation, List.find?_cons, h, htake,
      Crypto.decrypt_message_encrypt_message]

/-- Witness for C9: participant 1 (the sender role) of conversation 5
reads back the plaintext [104, 105] it sent. -/
theorem claim_C9_witness :
    MsgApi.get_conversation
      ⟨[], [⟨5, 1, 2, 0⟩],
       [⟨3, 5, 1,
         (Crypto.encrypt_message [7] [0, 1, 2, 3, 4, 5, 6, 7, 8, 9, 10, 11] [104, 105]).1,
         (Crypto.encrypt_message [7] [0, 1, 2, 3, 4, 5, 6, 7, 8, 9, 10, 11] [104, 105]).2,
         0⟩]⟩
      [7] 1 5 50 0
    = Except.ok [⟨3, 5, 1, [104, 105], 0⟩] :=
  claim_C9_roundtrip_both_roles [7] [0, 1, 2, 3, 4, 5, 6, 7, 8, 9, 10, 11] [104, 105]
    [] ⟨5, 1, 2, 0⟩ 1 1 3 0 (Or.inl rfl)

/-- Claim C10: a get-or-create-conversation call by an authenticated
user naming their own id is rejected with the self-conversation error
and leaves the store unchanged (no conversation created), and every
conversation present after any call either already existed or has two
distinct participants. -/
theorem claim_C10_no_self_conversation :
    (∀ (db : Events.AppDb) (fid : Nat) (now : Int) (cur : Nat),
       MsgApi.get_or_create_conversation db fid now cur cur
         = (db, Except.error MsgApi.ConvErr.selfConversation)) ∧
    (∀ (db : Events.AppDb) (fid : Nat) (now : Int) (cur tgt : Nat)
       (c : Events.ConvRec),
       c ∈ (MsgApi.get_or_create_conversation db fid now cur tgt).1.conversations →
       c ∈ db.conversations ∨ c.participant1_id ≠ c.participant2_id) := by
  constructor
  · intro db fid now cur
    simp [MsgApi.get_or_create_conversation]
  · intro db fid now cur tgt c
    by_cases h0 : (tgt == cur) = true
    · simp [MsgApi.get_or_create_conversation, h0]
      exact Or.inl
    · have h0f : (tgt == cur) = false := by
        cases hb : (tgt == cur) with
        | true => exact absurd hb h0
        | false => rfl
      cases hu : db.users.find? (fun v => v.id == tgt) with
      | none =>
        simp [MsgApi.get_or_create_conversation, h0f, hu]
        exact Or.inl
      | some w =>
        cases hfind : db.conversations.find? (fun cv =>
            (cv.participant1_id == cur && cv.participant2_id == tgt) ||
            (cv.participant1_id == tgt && cv.participant2_id == cur)) with
        | some cv =>
          simp [MsgApi.get_or_create_conversation, h0f, hu, hfind]
          exact Or.inl
        | none =>
          simp only [MsgApi.get_or_create_conversation, h0f, hu, hfind]
          intro hm
          simp at hm
          rcases hm with hm | hm
          · exact Or.inl hm
          · refine Or.inr ?_
            rw [hm]
            have : tgt ≠ cur := by simpa using h0f
            simpa using fun hq => this (hq.symm)

/-- Witness for C10: creating conversation 9 between users 1 and 2;
the created record has distinct participants. -/
theorem claim_C10_witness :
    ((⟨9, 1, 2, 0⟩ : Events.ConvRec)
        ∈ (MsgApi.get_or_create_conversation
            ⟨[⟨2, [98], true⟩], [], []⟩ 9 0 1 2).1.conversations) ∧
    ((⟨9, 1, 2, 0⟩ : Events.ConvRec) ∈ ([] : List Events.ConvRec) ∨
      (⟨9, 1, 2, 0⟩ : Events.ConvRec).participant1_id
        ≠ (⟨9, 1, 2, 0⟩ : Events.ConvRec).participant2_id) := by
  refine ⟨by decide, ?_⟩
  exact claim_C10_no_self_conversation.2 ⟨[⟨2, [98], true⟩], [], []⟩ 9 0 1 2
    ⟨9, 1, 2, 0⟩ (by decide)

end CryptoChat
